import Mathlib

/-
Verification of the hdlparse Verilog documentation parser
(src/hdlparse/verilog_parser.py).

The file embeds the parser shallowly:
 * the token table `verilog_tokens` is embedded as one hand-compiled
   deterministic matcher per regular-expression rule (the regexes involved
   are simple enough that their Python backtracking semantics collapse to
   deterministic maximal/minimal-munch scanning; each matcher's doc comment
   cites the pattern it implements);
 * the `MiniLexer` scanner is not part of src/ (only its import and call
   sites are), so it is modelled from the spec;
 * `parse_verilog`'s reducer loop is embedded as a step function folded
   over the token list, with Python exceptions as `Except.error`.

Python strings are Lean `String`s; `\w`/`\s` character classes are taken in
their ASCII reading (all inputs considered here are ASCII).
-/

namespace Hdlparse

/-- Python `\s` whitespace class: space, tab, newline, carriage return,
vertical tab, form feed. -/
def isPySpace (c : Char) : Bool :=
  c == ' ' || c == '\t' || c == '\n' || c == '\r' ||
  c == Char.ofNat 11 || c == Char.ofNat 12

/-- Python `\w` word-character class (ASCII reading): `[A-Za-z0-9_]`. -/
def isPyWord (c : Char) : Bool := c.isAlphanum || c == '_'

/-- The backquote character. -/
def backquote : Char := Char.ofNat 96

/-- The character class `[a-zA-Z0-9`:\s\[\]_-]` used by the two
`module_port_start` rules. -/
def isPortClassChar (c : Char) : Bool :=
  c.isAlphanum || c == backquote || c == ':' || isPySpace c ||
  c == '[' || c == ']' || c == '_' || c == '-'

/-- Drop a literal from the front of a character list; `none` when the
literal is not a prefix. -/
def dropLit : List Char → List Char → Option (List Char)
  | [], cs => some cs
  | _ :: _, [] => none
  | l :: ls, c :: cs => if c == l then dropLit ls cs else none

/-- Python `str.strip()` on a character list (ASCII whitespace). -/
def pyStripChars (cs : List Char) : List Char :=
  ((cs.dropWhile isPySpace).reverse.dropWhile isPySpace).reverse

/-- Python `str.strip()`. -/
def pyStrip (s : String) : String := String.mk (pyStripChars s.data)

/-- Python `str.split(sep)` for a one-character separator: splits at every
occurrence, keeping empty pieces; the result is never empty. -/
def pySplitOn (sep : Char) : List Char → List (List Char)
  | [] => [[]]
  | c :: cs =>
    if c == sep then [] :: pySplitOn sep cs
    else
      match pySplitOn sep cs with
      | [] => [[c]]
      | p :: ps => (c :: p) :: ps

/-- Helper for `pySplitWs`, with fuel bounding the recursion. -/
def pySplitWsAux : Nat → List Char → List (List Char)
  | 0, _ => []
  | n + 1, [] => (fun _ => []) n
  | n + 1, c :: cs =>
    if isPySpace c then pySplitWsAux n cs
    else
      (c :: cs.takeWhile (fun x => !(isPySpace x))) ::
        pySplitWsAux n (cs.dropWhile (fun x => !(isPySpace x)))

/-- Python `str.split()` with no argument: split on whitespace runs,
dropping empty pieces. -/
def pySplitWs (cs : List Char) : List (List Char) := pySplitWsAux cs.length cs

/-- Python `str.replace(a, b)` for one-character arguments. -/
def pyReplaceChar (a b : Char) (s : String) : String :=
  String.mk (s.data.map (fun c => if c == a then b else c))

/-- Action tags of the rules in `verilog_tokens`. -/
inductive VAction where
  | define | endif | module_decl | block_comment | metacomment
  | section_meta | parameter_start | param_item | module_port_start
  | port_param | end_module | end_comment
deriving DecidableEq, Repr

/-- Lexer states of `verilog_tokens`. -/
inductive LexState where
  | root | moduleSt | parametersSt | modulePortSt | blockCommentSt
deriving DecidableEq, Repr

/-- Stack operation attached to a rule: the optional third element of a
rule tuple (a state name to push, or the pop marker). -/
inductive StackOp where
  | stay
  | push (s : LexState)
  | pop
deriving DecidableEq, Repr

/-- Result of matching one rule at the cursor. -/
structure MatchRes where
  action : Option VAction
  groups : List (Option String)
  op : StackOp
  rest : List Char
deriving Repr

/-- Rule `(`ifdef|`ifndef)\s+(\w+)`: the alternation is tried left to
right (the two literals diverge at their third character, so no
backtracking arises); `\s+` and `\w+` are disjoint greedy runs. -/
def matchDefine (cs : List Char) : Option (List (Option String) × List Char) :=
  let kw : Option (String × List Char) :=
    match dropLit "`ifdef".data cs with
    | some r => some ("`ifdef", r)
    | none =>
      match dropLit "`ifndef".data cs with
      | some r => some ("`ifndef", r)
      | none => none
  match kw with
  | none => none
  | some (g1, r1) =>
    let ws := r1.takeWhile isPySpace
    if ws.isEmpty then none
    else
      let r2 := r1.dropWhile isPySpace
      let w := r2.takeWhile isPyWord
      if w.isEmpty then none
      else some ([some g1, some (String.mk w)], r2.dropWhile isPyWord)

/-- Rule `` `endif ``: a literal. -/
def matchEndif (cs : List Char) : Option (List (Option String) × List Char) :=
  (dropLit "`endif".data cs).map (fun r => ([], r))

/-- Rule `\bmodule\s+(\w+)\s*` (root state). The `\b` boundary requires the
character before the cursor not to be a word character (`module` starts
with one); `prevWord` carries that bit. -/
def matchModuleKw (prevWord : Bool) (cs : List Char) :
    Option (List (Option String) × List Char) :=
  if prevWord then none
  else
    match dropLit "module".data cs with
    | none => none
    | some r1 =>
      let ws := r1.takeWhile isPySpace
      if ws.isEmpty then none
      else
        let r2 := r1.dropWhile isPySpace
        let w := r2.takeWhile isPyWord
        if w.isEmpty then none
        else some ([some (String.mk w)], (r2.dropWhile isPyWord).dropWhile isPySpace)

/-- Rule `/\*`: a literal. -/
def matchBlockStart (cs : List Char) : Option (List (Option String) × List Char) :=
  (dropLit "/*".data cs).map (fun r => ([], r))

/-- Rule `\*/`: a literal. -/
def matchEndComment (cs : List Char) : Option (List (Option String) × List Char) :=
  (dropLit "*/".data cs).map (fun r => ([], r))

/-- Rule `//#+(.*)\n`: `#+` is a greedy run; `.` cannot cross the newline,
so the group is the remainder of the line and a terminating newline is
required (shrinking `#+` cannot rescue a missing newline). -/
def matchMetacomment (cs : List Char) : Option (List (Option String) × List Char) :=
  match dropLit "//".data cs with
  | none => none
  | some r1 =>
    let hs := r1.takeWhile (fun c => c == '#')
    if hs.isEmpty then none
    else
      let r2 := r1.dropWhile (fun c => c == '#')
      let body := r2.takeWhile (fun c => c != '\n')
      match r2.dropWhile (fun c => c != '\n') with
      | '\n' :: rest => some ([some (String.mk body)], rest)
      | _ => none

/-- Rule `//.*\n`: consume the rest of the line; a newline is required. -/
def matchLineComment (cs : List Char) : Option (List (Option String) × List Char) :=
  match dropLit "//".data cs with
  | none => none
  | some r1 =>
    match r1.dropWhile (fun c => c != '\n') with
    | '\n' :: rest => some ([], rest)
    | _ => none

/-- Rule `//#\s*{{(.*)}}\n`: after the literals and the whitespace run, the
closing braces must immediately precede the line's newline (`.*` cannot
cross it), so the group is the line content with its final two brace
characters removed. -/
def matchSectionMeta (cs : List Char) : Option (List (Option String) × List Char) :=
  match dropLit "//#".data cs with
  | none => none
  | some r1 =>
    let r2 := r1.dropWhile isPySpace
    match dropLit "\x7b\x7b".data r2 with
    | none => none
    | some r3 =>
      let line := r3.takeWhile (fun c => c != '\n')
      match r3.dropWhile (fun c => c != '\n') with
      | '\n' :: rest =>
        match line.reverse with
        | '\x7d' :: '\x7d' :: revg => some ([some (String.mk revg.reverse)], rest)
        | _ => none
      | _ => none

/-- The qualifier alternation `(signed|integer|realtime|real|time)?`, tried
in the written order (`realtime` precedes `real`, matching the regex's
preference). -/
def tryQualifier : List String → List Char → Option (String × List Char)
  | [], _ => none
  | q :: qs, cs =>
    match dropLit q.data cs with
    | some r => some (q, r)
    | none => tryQualifier qs cs

/-- The optional group `(\[[^]]+\])?`: an opening bracket, a nonempty run
of non-`]` characters (newlines included), and a closing bracket; the
group fails (contributing `none`) when that shape is absent. -/
def matchVecRange (cs : List Char) : Option (String × List Char) :=
  match cs with
  | '[' :: rest =>
    let body := rest.takeWhile (fun c => c != ']')
    if body.isEmpty then none
    else
      match rest.dropWhile (fun c => c != ']') with
      | ']' :: r => some ("[" ++ String.mk body ++ "]", r)
      | _ => none
  | _ => none

/-- Rules `parameter\s*(signed|…)?\s*(\[[^]]+\])?` (module state) and
`\s*parameter\s*…` (parameters state, `skipLeadingWs = true`). Both
optional groups can match empty text, so no backtracking arises. -/
def matchParameterStart (skipLeadingWs : Bool) (cs : List Char) :
    Option (List (Option String) × List Char) :=
  let cs0 := if skipLeadingWs then cs.dropWhile isPySpace else cs
  match dropLit "parameter".data cs0 with
  | none => none
  | some r1 =>
    let r2 := r1.dropWhile isPySpace
    let qr : Option String × List Char :=
      match tryQualifier ["signed", "integer", "realtime", "real", "time"] r2 with
      | some (q, r) => (some q, r)
      | none => (none, r2)
    let r3 := qr.2.dropWhile isPySpace
    match matchVecRange r3 with
    | some (v, r4) => some ([qr.1, some v], r4)
    | none => some ([qr.1, none], r3)

/-- The direction alternation `(input|inout|output)`, tried left to right;
`input` and `inout` diverge at their third character, so no backtracking
arises. -/
def tryDirection (cs : List Char) : Option (String × List Char) :=
  match dropLit "input".data cs with
  | some r => some ("input", r)
  | none =>
    match dropLit "inout".data cs with
    | some r => some ("inout", r)
    | none =>
      match dropLit "output".data cs with
      | some r => some ("output", r)
      | none => none

/-- Rule `(input|inout|output)([a-zA-Z0-9`:\s\[\]_-]+)` (module state):
the second group is a maximal nonempty run of the class. -/
def matchPortStartModule (cs : List Char) :
    Option (List (Option String) × List Char) :=
  match tryDirection cs with
  | none => none
  | some (d, r1) =>
    let g2 := r1.takeWhile isPortClassChar
    if g2.isEmpty then none
    else some ([some d, some (String.mk g2)], r1.dropWhile isPortClassChar)

/-- Rule `\s*(input|inout|output)([a-zA-Z0-9`:\s\[\]_-]+)\s*,?`
(module_port state): the class contains all of `\s`, so the trailing
`\s*` is already absorbed by the maximal class run; an optional comma
follows. -/
def matchPortStartPort (cs : List Char) :
    Option (List (Option String) × List Char) :=
  let cs0 := cs.dropWhile isPySpace
  match tryDirection cs0 with
  | none => none
  | some (d, r1) =>
    let g2 := r1.takeWhile isPortClassChar
    if g2.isEmpty then none
    else
      match r1.dropWhile isPortClassChar with
      | ',' :: r2 => some ([some d, some (String.mk g2)], r2)
      | r2 => some ([some d, some (String.mk g2)], r2)

/-- Rule `\s*(\w+)\s*,?` (module_port state). -/
def matchPortParam (cs : List Char) : Option (List (Option String) × List Char) :=
  let cs0 := cs.dropWhile isPySpace
  let w := cs0.takeWhile isPyWord
  if w.isEmpty then none
  else
    match (cs0.dropWhile isPyWord).dropWhile isPySpace with
    | ',' :: r2 => some ([some (String.mk w)], r2)
    | r2 => some ([some (String.mk w)], r2)

/-- Rule `[);]`: a single closing character. -/
def matchCloseTok (cs : List Char) : Option (List (Option String) × List Char) :=
  match cs with
  | ')' :: r => some ([], r)
  | ';' :: r => some ([], r)
  | _ => none

/-- Rule `,` (parameters state). -/
def matchComma (cs : List Char) : Option (List (Option String) × List Char) :=
  match cs with
  | ',' :: r => some ([], r)
  | _ => none

/-- The tail `\s*=\s*([0-9]+)\s*` of the `param_item` rule: `=` is not
whitespace, so the first `\s*` is a forced maximal skip; the digit run is
greedy and must be nonempty. -/
def matchEqValue (cs : List Char) : Option (String × List Char) :=
  match cs.dropWhile isPySpace with
  | '=' :: r1 =>
    let r2 := r1.dropWhile isPySpace
    let ds := r2.takeWhile Char.isDigit
    if ds.isEmpty then none
    else some (String.mk ds, (r2.dropWhile Char.isDigit).dropWhile isPySpace)
  | _ => none

/-- Lazy growth of the group `(.+?)` in the `param_item` rule: the group
(nonempty, never crossing a newline) is extended one character at a time,
attempting the rest of the pattern after each extension. -/
def lazyGrow : Nat → List Char → List Char →
    Option (String × String × List Char)
  | 0, _, _ => none
  | n + 1, acc, rest =>
    match rest with
    | [] => (fun _ => none) n
    | c :: rest1 =>
      if c == '\n' then none
      else
        let acc1 := acc ++ [c]
        match matchEqValue rest1 with
        | some (g2, r) => some (String.mk acc1, g2, r)
        | none => lazyGrow n acc1 rest1

/-- Backtracking over the greedy leading `\s*` of the `param_item` rule:
the maximal whitespace amount is tried first, then one character less,
and so on (the lazy group may then start inside the whitespace). -/
def paramItemTry : Nat → List Char → Option (List (Option String) × List Char)
  | 0, cs =>
    match lazyGrow cs.length [] cs with
    | some (g1, g2, r) => some ([some g1, some g2], r)
    | none => none
  | k + 1, cs =>
    let start := cs.drop (k + 1)
    match lazyGrow start.length [] start with
    | some (g1, g2, r) => some ([some g1, some g2], r)
    | none => paramItemTry k cs

/-- Rule `\s*(.+?)\s*=\s*([0-9]+)\s*` (parameters state), with Python's
backtracking order: greedy leading whitespace outermost, lazy group
innermost. -/
def matchParamItem (cs : List Char) : Option (List (Option String) × List Char) :=
  paramItemTry (cs.takeWhile isPySpace).length cs

/-- One attempted rule: wrap a matcher's result with its action tag and
stack operation. -/
def ruleHit (a : Option VAction) (op : StackOp)
    (r : Option (List (Option String) × List Char)) : Option MatchRes :=
  r.map (fun gr => ⟨a, gr.1, op, gr.2⟩)

/-- The `root` rule list, in table order. -/
def stepRoot (prevWord : Bool) (cs : List Char) : Option MatchRes :=
  match ruleHit (some .define) .stay (matchDefine cs) with
  | some r => some r
  | none =>
  match ruleHit (some .endif) .stay (matchEndif cs) with
  | some r => some r
  | none =>
  match ruleHit (some .module_decl) (.push .moduleSt) (matchModuleKw prevWord cs) with
  | some r => some r
  | none =>
  match ruleHit (some .block_comment) (.push .blockCommentSt) (matchBlockStart cs) with
  | some r => some r
  | none =>
  match ruleHit (some .metacomment) .stay (matchMetacomment cs) with
  | some r => some r
  | none => ruleHit none .stay (matchLineComment cs)

/-- The `module` rule list, in table order. -/
def stepModule (cs : List Char) : Option MatchRes :=
  match ruleHit (some .define) .stay (matchDefine cs) with
  | some r => some r
  | none =>
  match ruleHit (some .endif) .stay (matchEndif cs) with
  | some r => some r
  | none =>
  match ruleHit (some .parameter_start) (.push .parametersSt) (matchParameterStart false cs) with
  | some r => some r
  | none =>
  match ruleHit (some .module_port_start) (.push .modulePortSt) (matchPortStartModule cs) with
  | some r => some r
  | none =>
  match ruleHit (some .end_module) .pop ((dropLit "endmodule".data cs).map (fun r => ([], r))) with
  | some r => some r
  | none =>
  match ruleHit (some .block_comment) (.push .blockCommentSt) (matchBlockStart cs) with
  | some r => some r
  | none =>
  match ruleHit (some .section_meta) .stay (matchSectionMeta cs) with
  | some r => some r
  | none => ruleHit none .stay (matchLineComment cs)

/-- The `parameters` rule list, in table order. -/
def stepParameters (cs : List Char) : Option MatchRes :=
  match ruleHit (some .define) .stay (matchDefine cs) with
  | some r => some r
  | none =>
  match ruleHit (some .endif) .stay (matchEndif cs) with
  | some r => some r
  | none =>
  match ruleHit (some .parameter_start) .stay (matchParameterStart true cs) with
  | some r => some r
  | none =>
  match ruleHit (some .param_item) .stay (matchParamItem cs) with
  | some r => some r
  | none =>
  match ruleHit none .stay (matchComma cs) with
  | some r => some r
  | none => ruleHit none .pop (matchCloseTok cs)

/-- The `module_port` rule list, in table order. -/
def stepModulePort (cs : List Char) : Option MatchRes :=
  match ruleHit (some .define) .stay (matchDefine cs) with
  | some r => some r
  | none =>
  match ruleHit (some .endif) .stay (matchEndif cs) with
  | some r => some r
  | none =>
  match ruleHit (some .module_port_start) .stay (matchPortStartPort cs) with
  | some r => some r
  | none =>
  match ruleHit (some .port_param) .stay (matchPortParam cs) with
  | some r => some r
  | none =>
  match ruleHit none .pop (matchCloseTok cs) with
  | some r => some r
  | none =>
  match ruleHit (some .section_meta) .stay (matchSectionMeta cs) with
  | some r => some r
  | none => ruleHit none .stay (matchLineComment cs)

/-- The `block_comment` rule list: only the closing delimiter. -/
def stepBlockComment (cs : List Char) : Option MatchRes :=
  ruleHit (some .end_comment) .pop (matchEndComment cs)

/-- Try the rules of a state, in table order. -/
def stepLexState (st : LexState) (prevWord : Bool) (cs : List Char) : Option MatchRes :=
  match st with
  | .root => stepRoot prevWord cs
  | .moduleSt => stepModule cs
  | .parametersSt => stepParameters cs
  | .modulePortSt => stepModulePort cs
  | .blockCommentSt => stepBlockComment cs

/-- A token: cursor position, action tag (or none for silent rules), and
the captured groups. -/
abbrev Token := Nat × Option VAction × List (Option String)

/-- Top of the lexer state stack (the stack is never empty; `root` is the
unreachable fallback). -/
def topState : List LexState → LexState
  | [] => .root
  | s :: _ => s

/-- Apply a rule's stack operation. -/
def applyOp (op : StackOp) (stack : List LexState) : List LexState :=
  match op with
  | .stay => stack
  | .push s => s :: stack
  | .pop =>
    match stack with
    | [] => []
    | _ :: rest => rest

/-- Modelled from the spec: the `MiniLexer` scanner (its source file is not
part of src/; only the token table and the call sites are). Per spec §4.1
and §4.2 it keeps a stack of state names starting at `[root]`; at each
cursor position the rules of the top state are tried in table order and the
first match wins, its stack operation is applied, and a
`(position, action tag, groups)` token is emitted (also for silent rules);
when no rule matches, the cursor advances one character without emitting
(the fallback behaviour §4.2 relies on for block-comment bodies and free
text). `prevWord` records whether the character before the cursor is a
word character, for the `\b` in the root module rule. Each rule consumes
at least one character, so fuel `length + 1` suffices. -/
def lexRun : Nat → Nat → Bool → List LexState → List Char → List Token
  | 0, _, _, _, _ => []
  | _ + 1, _, _, _, [] => []
  | fuel + 1, pos, prevWord, stack, cs =>
    match stepLexState (topState stack) prevWord cs with
    | some r =>
      let consumed := cs.length - r.rest.length
      let lastWord :=
        match (cs.take consumed).reverse with
        | c :: _ => isPyWord c
        | [] => prevWord
      (pos, r.action, r.groups) ::
        lexRun fuel (pos + consumed) lastWord (applyOp r.op stack) r.rest
    | none =>
      match cs with
      | c :: rest => lexRun fuel (pos + 1) (isPyWord c) stack rest
      | [] => []

/-- `VerilogLexer.run(text)`: the token sequence of a whole text. -/
def lexTokens (text : List Char) : List Token :=
  lexRun (text.length + 1) 0 false [.root] text

/-- The Python exceptions `parse_verilog` can raise. -/
inductive PyError where
  /-- `Exception("No matching '`ifdef'' or '`ifndef' for the '`endif'")` -/
  | noMatchingEndif
  /-- `Exception("'…' is not terminated with a matching '`endif'")`,
  carrying the formatted define. -/
  | unterminatedDefine (msg : String)
  /-- `Exception("Unknown port format: …")` -/
  | unknownPortFormat
  /-- `TypeError` from `' ' + vec_range` when `vec_range` still holds the
  tuple `(None,)` it was initialised to. -/
  | typeErrorStrTuple
  /-- `IndexError` from an out-of-range list subscript. -/
  | indexError
  /-- `AttributeError` from attribute assignment on a tuple. -/
  | attributeError
deriving DecidableEq, Repr

/-- `VerilogParameter`: parameter or port record. Fields mirror the
constructor defaults (`mode=None, data_type=None, default_value=None,
desc=None, define=None`); `kind` is the constant `'unknown'` and is
omitted. -/
structure VerilogParameter where
  name : String
  mode : Option String
  data_type : Option String
  default_value : Option String
  desc : Option String
  define : Option String
deriving DecidableEq, Repr

/-- `VerilogModule`: module record. `desc` is the metacomment list passed
for the base-class `desc`; `kind` is the constant `'module'` and is
omitted. -/
structure VerilogModule where
  name : Option String
  ports : List VerilogParameter
  generics : List VerilogParameter
  sections : List (Nat × String)
  desc : List String
  define : Option String
deriving DecidableEq, Repr

/-- Key of the `ports` ordered dictionary: the reducer indexes `ports` by
the whole pending tuple `(ident, define)` (`ports[i] = …` with `i` drawn
from `param_items`). -/
abbrev PortKey := String × Option String

/-- Assignment `d[k] = v` on an insertion-ordered dictionary held as an
association list: an existing key keeps its position and gets the new
value; a new key is appended. -/
def odictInsert {κ α : Type} [BEq κ] (k : κ) (v : α) :
    List (κ × α) → List (κ × α)
  | [] => [(k, v)]
  | (k0, v0) :: rest =>
    if k0 == k then (k0, v) :: rest else (k0, v0) :: odictInsert k v rest

/-- `dict(pairs)`: fold the pairs into a dictionary (later values win,
first-insertion order kept). -/
def pyDict {κ α : Type} [BEq κ] (l : List (κ × α)) : List (κ × α) :=
  l.foldl (fun d kv => odictInsert kv.1 kv.2 d) []

/-- The local state of the `parse_verilog` loop. The unused Python locals
`saved_type`, `array_range_start_pos` and the write-only `kind` are
omitted. -/
structure PState where
  name : Option String
  mode : String
  ptype : String
  metacomments : List String
  generics : List VerilogParameter
  param_items : List PortKey
  ports : List (PortKey × VerilogParameter)
  sections : List (Nat × String)
  port_param_index : Nat
  last_item : Option PortKey
  current_define : List String
  objects : List VerilogModule
deriving Repr

/-- Initial loop state (`mode = 'input'`, `ptype = 'wire'`). -/
def initState : PState :=
  { name := none, mode := "input", ptype := "wire", metacomments := [],
    generics := [], param_items := [], ports := [], sections := [],
    port_param_index := 0, last_item := none, current_define := [],
    objects := [] }

/-- `None if len(current_define) == 0 else current_define[-1]`. -/
def lastDefine (st : PState) : Option String :=
  if st.current_define.isEmpty then none
  else some (st.current_define.getLastD "")

/-- `VerilogParameter(i[0], mode, ptype, define=i[1])`. -/
def mkPortParam (i : PortKey) (mode ptype : String) : VerilogParameter :=
  ⟨i.1, some mode, some ptype, none, none, i.2⟩

/-- The pending-item flush `for i in param_items: ports[i] =
VerilogParameter(i[0], mode, ptype, define=i[1])`. -/
def flushPorts (mode ptype : String) :
    List PortKey → List (PortKey × VerilogParameter) → List (PortKey × VerilogParameter)
  | [], ports => ports
  | i :: is, ports => flushPorts mode ptype is (odictInsert i (mkPortParam i mode ptype) ports)

/-- The port-header disambiguation of the `module_port_start` handler
(lines 182–215): from the stripped second group it derives the optional
net type, the bit range, and the optional array specifier (the computed
`ident` has no observable effect beyond its possible `IndexError` and is
not returned). The local `vec_range` is initialised by the statement
`vec_range = None,` — a trailing comma, so it holds the one-element tuple
`(None,)`; in the bracket-free branch it is never reassigned, and the
later `new_ptype += ' ' + vec_range` (guarded by `vec_range is not None`,
which the tuple satisfies) raises `TypeError`. -/
def portHeaderInfo (second_group : String) :
    Except PyError (Option String × String × Option String) :=
  if second_group.data.contains '[' then
    let parts := pySplitOn '[' second_group.data
    let first_element := pyStripChars (parts.headD [])
    let net_type : Option String :=
      if first_element.isEmpty then none else some (String.mk first_element)
    let width := pySplitOn ']' (pyStripChars (parts.getD 1 []))
    let vec_range : String := "[" ++ String.mk (width.headD []) ++ "]"
    if parts.length = 2 then
      match width[1]? with
      | some w1 =>
        let _ident := pyStripChars w1
        .ok (net_type, vec_range, none)
      | none => .error .indexError
    else if parts.length = 3 then
      let arr := pySplitOn ']' (pyStripChars (parts.getD 2 []))
      match arr[1]? with
      | some a1 =>
        let _ident := pyStripChars a1
        .ok (net_type, vec_range, some ("[" ++ String.mk (pyStripChars (arr.headD [])) ++ "]"))
      | none => .error .indexError
    else
      .error .unknownPortFormat
  else
    match pySplitWs second_group.data with
    | [] => .error .indexError
    | ws =>
      let _ident := ws.getLastD []
      let _net_type := if ws.length > 1 then some (String.mk (ws.headD [])) else none
      .error .typeErrorStrTuple

/-- Build `new_ptype` from `(net_type, vec_range, array_spec)` (lines
217–228): the net type if present, then always `' ' + vec_range` (the
`is not None` guard cannot fail once `vec_range` is a string), then the
array specifier with no separator. The `signed` local is never set, so
its branch contributes nothing. -/
def newPtype (info : Option String × String × Option String) : String :=
  let p1 := match info.1 with | some t => t | none => ""
  let p2 := p1 ++ " " ++ info.2.1
  match info.2.2 with
  | some a => p2 ++ a
  | none => p2

/-- Python string `<`: lexicographic comparison by code point. -/
def lexLtChars : List Char → List Char → Bool
  | [], [] => false
  | [], _ :: _ => true
  | _ :: _, [] => false
  | a :: as, b :: bs => if a < b then true else if b < a then false else lexLtChars as bs

/-- One step of a stable insertion sort keyed by `name`: the new element
goes before the first strictly greater element, hence after all equal
names already placed. -/
def pySortIns (x : VerilogParameter) : List VerilogParameter → List VerilogParameter
  | [] => [x]
  | y :: l =>
    if lexLtChars x.name.data y.name.data then x :: y :: l else y :: pySortIns x l

/-- Left fold of the stable insertion. -/
def pySortLoop : List VerilogParameter → List VerilogParameter → List VerilogParameter
  | acc, [] => acc
  | acc, x :: l => pySortLoop (pySortIns x acc) l

/-- `lports.sort(key=lambda x: x.name)`: Python's stable sort by name,
modelled as a stable insertion sort (equal names keep their relative
order). -/
def pySortByName (l : List VerilogParameter) : List VerilogParameter :=
  pySortLoop [] l

/-- The `module_port_start` handler: parse the header (possible raise),
flush pending items under the previous mode/ptype, update `last_item` to
the positionally last key when the dictionary is nonempty, then install
the new mode and type. -/
def doModulePortStart (st : PState) (new_mode sg0 : String) : Except PyError PState :=
  match portHeaderInfo (pyStrip sg0) with
  | .error e => .error e
  | .ok info =>
    let ports1 := flushPorts st.mode st.ptype st.param_items st.ports
    let last1 := if ports1.length > 0 then (ports1.map Prod.fst).getLast? else st.last_item
    .ok { st with ports := ports1, param_items := [], last_item := last1,
                  mode := new_mode, ptype := newPtype info }

/-- The `end_module` handler: raise when the define stack is nonempty;
otherwise flush pending items, sort the port values by name, emit the
module record, and reset `last_item` and the metacomment buffer
(`param_items` is not cleared here). -/
def doEndModule (st : PState) : Except PyError PState :=
  if st.current_define.isEmpty then
    let ports1 := flushPorts st.mode st.ptype st.param_items st.ports
    let lports := pySortByName (ports1.map Prod.snd)
    let vobj : VerilogModule :=
      ⟨st.name, lports, st.generics, pyDict st.sections, st.metacomments,
        if st.current_define.isEmpty then none
        else some (st.current_define.getLastD "")⟩
    .ok { st with ports := ports1, objects := st.objects ++ [vobj],
                  last_item := none, metacomments := [] }
  else
    .error (.unterminatedDefine
      (pyReplaceChar '=' ' ' (st.current_define.getLastD "")))

/-- `groups[0]` as a string (the rules reaching the handlers that use it
always populate the group). -/
def grp0 (gs : List (Option String)) : String := (gs.getD 0 none).getD ""

/-- `groups[1]` as a string. -/
def grp1 (gs : List (Option String)) : String := (gs.getD 1 none).getD ""

/-- One iteration of the `for pos, action, groups in lex.run(text)` loop.
Tokens with no action tag fall through every branch. -/
def reduceStep : PState → Token → Except PyError PState
  | st, (_, none, _) => .ok st
  | st, (_, some .metacomment, gs) =>
    -- `last_item` only ever holds a dictionary key — an (ident, define)
    -- tuple (`last_item = next(reversed(ports))`) — so the assignment
    -- `last_item.desc = groups[0]` would raise AttributeError.
    (match st.last_item with
     | none => .ok { st with metacomments := st.metacomments ++ [grp0 gs] }
     | some _ => .error .attributeError)
  | st, (_, some .section_meta, gs) =>
    .ok { st with sections := st.sections ++ [(st.port_param_index, grp0 gs)] }
  | st, (_, some .define, gs) =>
    .ok { st with current_define := st.current_define ++ [grp0 gs ++ "=" ++ grp1 gs] }
  | st, (_, some .endif, _) =>
    (if st.current_define.isEmpty then .error .noMatchingEndif
     else .ok { st with current_define := st.current_define.dropLast })
  | st, (_, some .module_decl, gs) =>
    .ok { st with name := some (grp0 gs), generics := [], ports := [],
                  param_items := [], sections := [], port_param_index := 0 }
  | st, (_, some .parameter_start, gs) =>
    -- net_type, vec_range = groups; ptype is rebuilt from the optional
    -- qualifier and the optional range.
    (let p1 := match gs.getD 0 none with | some t => t | none => ""
     let newp := match gs.getD 1 none with | some v => p1 ++ " " ++ v | none => p1
     .ok { st with ptype := newp })
  | st, (_, some .param_item, gs) =>
    .ok { st with generics := st.generics ++
            [⟨grp0 gs, some "in", some st.ptype, some (grp1 gs), none, lastDefine st⟩] }
  | st, (_, some .module_port_start, gs) =>
    doModulePortStart st (grp0 gs) (grp1 gs)
  | st, (_, some .port_param, gs) =>
    .ok { st with param_items := st.param_items ++ [(grp0 gs, lastDefine st)],
                  port_param_index := st.port_param_index + 1 }
  | st, (_, some .end_module, _) => doEndModule st
  | st, (_, some .block_comment, _) => .ok st
  | st, (_, some .end_comment, _) => .ok st

/-- Fold the reducer over a token list; a raise abandons the rest of the
stream, matching the generator semantics of the source loop. -/
def reduceAll : List Token → PState → Except PyError PState
  | [], st => .ok st
  | t :: ts, st =>
    match reduceStep st t with
    | .ok st1 => reduceAll ts st1
    | .error e => .error e

/-- `parse_verilog(text)`: lex the buffer and run the reducer, returning
the accumulated module records. -/
def parse_verilog (text : String) : Except PyError (List VerilogModule) :=
  match reduceAll (lexTokens text.data) initState with
  | .ok st => .ok st.objects
  | .error e => .error e

/-- `VerilogExtractor`: the path-keyed cache of parse results. -/
structure VerilogExtractor where
  object_cache : List (String × List VerilogModule)
deriving DecidableEq, Repr

/-- Failures of `extract_objects`: a failed file read, or a propagated
parse raise. -/
inductive ExtractError where
  | ioError
  | parseError (e : PyError)
deriving DecidableEq, Repr

/-- `VerilogExtractor.extract_objects(fname, type_filter)`. File reading is
modelled by an explicit file system `fs` (a partial map from path to
text); a missing file is an `IOError`-style failure and a parse raise
propagates, in both cases leaving the cache untouched. `isinstance(o,
type_filter)` for an arbitrary class argument is modelled as a predicate
on the parsed records; `if type_filter:` is the `Option` match. The cache
always stores the unfiltered parse result; the filter applies only to the
returned list. -/
def extract_objects (fs : String → Option String) (self : VerilogExtractor)
    (fname : String) (type_filter : Option (VerilogModule → Bool)) :
    Except ExtractError (List VerilogModule × VerilogExtractor) :=
  match self.object_cache.lookup fname with
  | some objs =>
    (match type_filter with
     | some f => .ok (objs.filter f, self)
     | none => .ok (objs, self))
  | none =>
    match fs fname with
    | none => .error .ioError
    | some text =>
      match parse_verilog text with
      | .error e => .error (.parseError e)
      | .ok objs =>
        let cache1 := odictInsert fname objs self.object_cache
        (match type_filter with
         | some f => .ok (objs.filter f, ⟨cache1⟩)
         | none => .ok (objs, ⟨cache1⟩))

/-! ### Order lemmas for the name comparison -/

theorem lexLtChars_asymm : ∀ {a b : List Char},
    lexLtChars a b = true → lexLtChars b a = false := by
  intro a
  induction a with
  | nil =>
    intro b h
    cases b with
    | nil => simp [lexLtChars] at h
    | cons y ys => simp [lexLtChars]
  | cons x xs ih =>
    intro b h
    cases b with
    | nil => simp [lexLtChars] at h
    | cons y ys =>
      rcases lt_trichotomy x y with hlt | heq | hgt
      · simp [lexLtChars, lt_asymm hlt, hlt]
      · subst heq
        simp only [lexLtChars, lt_irrefl, if_false] at h ⊢
        exact ih h
      · simp only [lexLtChars, lt_asymm hgt, if_false, hgt, if_true] at h
        exact Bool.noConfusion h

theorem lexLtChars_le_trans : ∀ {a b c : List Char},
    lexLtChars b a = false → lexLtChars c b = false → lexLtChars c a = false := by
  intro a
  induction a with
  | nil =>
    intro b c h1 h2
    cases c with
    | nil => rfl
    | cons z zs => rfl
  | cons x xs ih =>
    intro b c h1 h2
    cases b with
    | nil => exact Bool.noConfusion h1
    | cons y ys =>
      cases c with
      | nil => exact Bool.noConfusion h2
      | cons z zs =>
        simp only [lexLtChars] at h1 h2 ⊢
        by_cases hyx : y < x
        · simp [hyx] at h1
        · by_cases hzy : z < y
          · simp [hzy] at h2
          · have hxy : x ≤ y := le_of_not_lt hyx
            have hyz : y ≤ z := le_of_not_lt hzy
            have hzx : ¬ z < x := not_lt_of_le (le_trans hxy hyz)
            simp only [hzx, if_false]
            by_cases hxz : x < z
            · simp [hxz]
            · have hzx' : z ≤ x := le_of_not_lt hxz
              have hxz' : x = z := le_antisymm (le_trans hxy hyz) hzx'
              subst hxz'
              have hyx' : y = x := le_antisymm hyz hxy
              subst hyx'
              simp only [lt_irrefl, if_false] at h1 h2
              simp only [hxz, if_false]
              exact ih h1 h2

/-- The order in which a module's ports are emitted: `a` precedes `b` when
`b`'s name is not strictly below `a`'s (ascending by name). -/
def nameLe (a b : VerilogParameter) : Prop :=
  lexLtChars b.name.data a.name.data = false

/-! ### Membership and sortedness lemmas for the containers -/

theorem mem_odictInsert {κ α : Type} [BEq κ] [LawfulBEq κ] {k : κ} {v : α} :
    ∀ {l : List (κ × α)} {kv : κ × α},
      kv ∈ odictInsert k v l → kv = (k, v) ∨ kv ∈ l := by
  intro l
  induction l with
  | nil =>
    intro kv h
    simp [odictInsert] at h
    left; exact h
  | cons hd tl ih =>
    intro kv h
    rcases hd with ⟨k0, v0⟩
    rw [odictInsert] at h
    by_cases hk : (k0 == k) = true
    · rw [if_pos hk] at h
      have hk' : k0 = k := eq_of_beq hk
      rcases List.mem_cons.mp h with h1 | h1
      · left; rw [h1, hk']
      · right; exact List.mem_cons_of_mem _ h1
    · rw [if_neg hk] at h
      rcases List.mem_cons.mp h with h1 | h1
      · right; exact h1 ▸ List.mem_cons_self _ _
      · rcases ih h1 with h2 | h2
        · left; exact h2
        · right; exact List.mem_cons_of_mem _ h2

theorem mem_pySortIns {x : VerilogParameter} :
    ∀ {l : List VerilogParameter} {z : VerilogParameter},
      z ∈ pySortIns x l → z = x ∨ z ∈ l := by
  intro l
  induction l with
  | nil =>
    intro z h
    simp [pySortIns] at h
    left; exact h
  | cons y l ih =>
    intro z h
    rw [pySortIns] at h
    by_cases hc : lexLtChars x.name.data y.name.data = true
    · rw [if_pos hc] at h
      rcases List.mem_cons.mp h with h1 | h1
      · left; exact h1
      · right; exact h1
    · rw [if_neg hc] at h
      rcases List.mem_cons.mp h with h1 | h1
      · right; exact h1 ▸ List.mem_cons_self _ _
      · rcases ih h1 with h2 | h2
        · left; exact h2
        · right; exact List.mem_cons_of_mem _ h2

theorem pairwise_pySortIns {x : VerilogParameter} :
    ∀ {l : List VerilogParameter},
      List.Pairwise nameLe l → List.Pairwise nameLe (pySortIns x l) := by
  intro l
  induction l with
  | nil =>
    intro _
    simp [pySortIns]
  | cons y l ih =>
    intro h
    rcases List.pairwise_cons.mp h with ⟨hy, hl⟩
    rw [pySortIns]
    by_cases hc : lexLtChars x.name.data y.name.data = true
    · rw [if_pos hc]
      refine List.pairwise_cons.mpr ⟨?_, h⟩
      intro z hz
      rcases List.mem_cons.mp hz with h1 | h1
      · subst h1
        exact lexLtChars_asymm hc
      · exact lexLtChars_le_trans (lexLtChars_asymm hc) (hy z h1)
    · rw [if_neg hc]
      refine List.pairwise_cons.mpr ⟨?_, ih hl⟩
      intro z hz
      rcases mem_pySortIns hz with h1 | h1
      · subst h1
        exact Bool.eq_false_iff.mpr hc
      · exact hy z h1

theorem pairwise_pySortLoop :
    ∀ {l acc : List VerilogParameter},
      List.Pairwise nameLe acc → List.Pairwise nameLe (pySortLoop acc l) := by
  intro l
  induction l with
  | nil => intro acc h; exact h
  | cons x l ih => intro acc h; exact ih (pairwise_pySortIns h)

theorem pairwise_pySortByName (l : List VerilogParameter) :
    List.Pairwise nameLe (pySortByName l) :=
  pairwise_pySortLoop List.Pairwise.nil

theorem mem_pySortLoop :
    ∀ {l acc : List VerilogParameter} {z : VerilogParameter},
      z ∈ pySortLoop acc l → z ∈ acc ∨ z ∈ l := by
  intro l
  induction l with
  | nil => intro acc z h; left; exact h
  | cons x l ih =>
    intro acc z h
    rcases ih h with h1 | h1
    · rcases mem_pySortIns h1 with h2 | h2
      · right; exact h2 ▸ List.mem_cons_self _ _
      · left; exact h2
    · right; exact List.mem_cons_of_mem _ h1

theorem mem_pySortByName {l : List VerilogParameter} {z : VerilogParameter}
    (h : z ∈ pySortByName l) : z ∈ l := by
  rcases mem_pySortLoop h with h1 | h1
  · cases h1
  · exact h1

/-! ### The reducer invariant -/

/-- Every port entry accumulated in the ordered dictionary was built by
`mkPortParam`, hence carries no description. -/
def PortsDescNone (st : PState) : Prop :=
  ∀ kv ∈ st.ports, (Prod.snd kv).desc = none

/-- The shape of every emitted module record: no guard annotation, ports
sorted ascending by name, and no port description. -/
def GoodModule (m : VerilogModule) : Prop :=
  m.define = none ∧ List.Pairwise nameLe m.ports ∧ ∀ p ∈ m.ports, p.desc = none

/-- Invariant carried through the reducer fold. -/
def StInv (st : PState) : Prop :=
  PortsDescNone st ∧ ∀ m ∈ st.objects, GoodModule m

theorem flushPorts_desc {mode ptype : String} :
    ∀ {items : List PortKey} {ports : List (PortKey × VerilogParameter)},
      (∀ kv ∈ ports, (Prod.snd kv).desc = none) →
      ∀ kv ∈ flushPorts mode ptype items ports, (Prod.snd kv).desc = none := by
  intro items
  induction items with
  | nil => intro ports h; exact h
  | cons i is ih =>
    intro ports h
    rw [flushPorts]
    apply ih
    intro kv hkv
    rcases mem_odictInsert hkv with h1 | h1
    · rw [h1]; rfl
    · exact h kv h1

theorem doModulePortStart_ok {st st' : PState} {md sg : String}
    (h : doModulePortStart st md sg = .ok st') :
    st'.ports = flushPorts st.mode st.ptype st.param_items st.ports ∧
    st'.objects = st.objects := by
  unfold doModulePortStart at h
  cases hinfo : portHeaderInfo (pyStrip sg) with
  | error e =>
    rw [hinfo] at h
    exact Except.noConfusion h
  | ok info =>
    rw [hinfo] at h
    injection h with h
    subst h
    exact ⟨rfl, rfl⟩

theorem doEndModule_ok {st st' : PState} (h : doEndModule st = .ok st') :
    st.current_define = [] ∧
    st'.ports = flushPorts st.mode st.ptype st.param_items st.ports ∧
    st'.objects = st.objects ++
      [⟨st.name,
        pySortByName ((flushPorts st.mode st.ptype st.param_items st.ports).map Prod.snd),
        st.generics, pyDict st.sections, st.metacomments, none⟩] := by
  unfold doEndModule at h
  by_cases hc : st.current_define.isEmpty = true
  · rw [if_pos hc] at h
    injection h with h
    subst h
    refine ⟨List.isEmpty_iff.mp hc, rfl, ?_⟩
    simp [hc]
  · rw [if_neg hc] at h
    exact Except.noConfusion h

theorem reduceStep_inv {st st' : PState} {t : Token}
    (hinv : StInv st) (h : reduceStep st t = .ok st') : StInv st' := by
  rcases t with ⟨p, a, gs⟩
  cases a with
  | none =>
    rw [reduceStep] at h
    injection h with h
    subst h
    exact hinv
  | some act =>
    cases act with
    | metacomment =>
      rw [reduceStep] at h
      cases hli : st.last_item with
      | none =>
        rw [hli] at h
        injection h with h
        subst h
        exact hinv
      | some k =>
        rw [hli] at h
        exact Except.noConfusion h
    | section_meta =>
      rw [reduceStep] at h
      injection h with h
      subst h
      exact hinv
    | define =>
      rw [reduceStep] at h
      injection h with h
      subst h
      exact hinv
    | endif =>
      rw [reduceStep] at h
      by_cases hc : st.current_define.isEmpty = true
      · rw [if_pos hc] at h
        exact Except.noConfusion h
      · rw [if_neg hc] at h
        injection h with h
        subst h
        exact hinv
    | module_decl =>
      rw [reduceStep] at h
      injection h with h
      subst h
      refine ⟨?_, hinv.2⟩
      intro kv hkv
      cases hkv
    | parameter_start =>
      rw [reduceStep] at h
      injection h with h
      subst h
      exact hinv
    | param_item =>
      rw [reduceStep] at h
      injection h with h
      subst h
      exact hinv
    | module_port_start =>
      rw [reduceStep] at h
      rcases doModulePortStart_ok h with ⟨hp, ho⟩
      refine ⟨?_, ?_⟩
      · rw [PortsDescNone, hp]
        exact flushPorts_desc hinv.1
      · rw [ho]
        exact hinv.2
    | port_param =>
      rw [reduceStep] at h
      injection h with h
      subst h
      exact hinv
    | end_module =>
      rw [reduceStep] at h
      rcases doEndModule_ok h with ⟨-, hp, ho⟩
      refine ⟨?_, ?_⟩
      · rw [PortsDescNone, hp]
        exact flushPorts_desc hinv.1
      · rw [ho]
        intro m hm
        rcases List.mem_append.mp hm with h1 | h1
        · exact hinv.2 m h1
        · rcases List.mem_singleton.mp h1 with rfl
          refine ⟨rfl, pairwise_pySortByName _, ?_⟩
          intro q hq
          rcases List.mem_map.mp (mem_pySortByName hq) with ⟨kv, hkv, rfl⟩
          exact flushPorts_desc hinv.1 kv hkv
    | block_comment =>
      rw [reduceStep] at h
      injection h with h
      subst h
      exact hinv
    | end_comment =>
      rw [reduceStep] at h
      injection h with h
      subst h
      exact hinv

theorem reduceAll_inv :
    ∀ {toks : List Token} {st st' : PState},
      StInv st → reduceAll toks st = .ok st' → StInv st' := by
  intro toks
  induction toks with
  | nil =>
    intro st st' hinv h
    rw [reduceAll] at h
    injection h with h
    subst h
    exact hinv
  | cons t ts ih =>
    intro st st' hinv h
    rw [reduceAll] at h
    cases hstep : reduceStep st t with
    | error e =>
      rw [hstep] at h
      exact Except.noConfusion h
    | ok st1 =>
      rw [hstep] at h
      exact ih (reduceStep_inv hinv hstep) h

theorem initState_inv : StInv initState := by
  refine ⟨?_, ?_⟩
  · intro kv hkv; cases hkv
  · intro m hm; cases hm

/-- Every module of a successful parse satisfies the emitted-module
invariant. -/
theorem parse_verilog_good {text : String} {mods : List VerilogModule}
    (h : parse_verilog text = .ok mods) : ∀ m ∈ mods, GoodModule m := by
  unfold parse_verilog at h
  cases hred : reduceAll (lexTokens text.data) initState with
  | error e =>
    rw [hred] at h
    exact Except.noConfusion h
  | ok stf =>
    rw [hred] at h
    injection h with h
    subst h
    exact (reduceAll_inv initState_inv hred).2

/-! ### Dictionary lookup lemma for the extractor cache -/

theorem lookup_odictInsert_self {κ α : Type} [BEq κ] [LawfulBEq κ] (k : κ) (v : α) :
    ∀ l : List (κ × α), List.lookup k (odictInsert k v l) = some v := by
  intro l
  induction l with
  | nil => simp [odictInsert, List.lookup]
  | cons hd tl ih =>
    rcases hd with ⟨k0, v0⟩
    rw [odictInsert]
    by_cases hk : (k0 == k) = true
    · rw [if_pos hk]
      have hkk : (k == k0) = true := by
        rw [eq_of_beq hk]
        exact beq_self_eq_true k
      simp [List.lookup, hkk]
    · rw [if_neg hk]
      have hkk : (k == k0) = false := by
        refine beq_eq_false_iff_ne.mpr ?_
        intro he
        exact hk (beq_iff_eq.mpr he.symm)
      simp [List.lookup, hkk, ih]

/-! ### The claims -/

/-- Claim C1. The claim states that parsing
`module foo ( input a, input [7:0] b, output reg [3:0] c ); endmodule`
returns one module `foo` with ports `a`, `b`, `c`. In fact the parse
raises: the first header `input a` has no bracket, so `vec_range` keeps
the tuple `(None,)` it was initialised to by the trailing comma in
`vec_range = None,`, and `new_ptype += ' ' + vec_range` raises
`TypeError` (the spec's scenario is clearly the intent; the trailing
comma is a slip). -/
theorem claim1_scenario_a_raises :
    parse_verilog "module foo ( input a, input [7:0] b, output reg [3:0] c ); endmodule" =
      .error .typeErrorStrTuple := rfl

/-- Claim C2. The claim states that parsing
`module m ( input [7:0][3:0] d ); endmodule` yields one port `d` of type
`[7:0][3:0]`. In fact the module is emitted with an empty ports list: the
header's own identifier (`d`) is parsed into a local variable but never
added to the port dictionary, so nothing reaches `ports` (and the type
the header computes is `" [7:0][3:0]"`, with a leading space). -/
theorem claim2_scenario_e_empty_ports :
    parse_verilog "module m ( input [7:0][3:0] d ); endmodule" =
      .ok [⟨some "m", [], [], [], [], none⟩] := rfl

/-- Claim C3, counterexample. The metacomment `//# note` follows the
completed declarations of module `m` (and its port region), so the claim
says it must become the description of the most recently completed
declaration. Instead it is appended to the pending buffer (`last_item` is
always `None` when a metacomment token can occur, having been reset by
`end_module`) and surfaces as the *next* module `p`'s leading
description, while `m`'s description stays empty. -/
theorem claim3_counterexample :
    parse_verilog "module m ( input [1:0] a );\nendmodule\n//# note\nmodule p ( input [1:0] q );\nendmodule\n" =
      .ok [⟨some "m", [], [], [], [], none⟩,
           ⟨some "p", [], [], [], [" note"], none⟩] := rfl

/-- Claim C3, amended. Metacomment tokens are produced only at top level
(the `metacomment` rule exists only in the `root` state; inside a module
`//#` lines are consumed as plain comments), and at top level no
declaration is pending, so every recognized metacomment is appended to
the module-level buffer and becomes the *next* emitted module's leading
description; no declaration ever receives a metacomment description — in
particular every emitted port's `desc` is `None` on every input. -/
theorem claim3_amended_metacomments :
    (∀ (text : String) (mods : List VerilogModule) (m : VerilogModule)
        (p : VerilogParameter),
        parse_verilog text = .ok mods → m ∈ mods → p ∈ m.ports → p.desc = none)
    ∧ parse_verilog "//# intro\nmodule q ( input [1:0] z ); endmodule" =
        .ok [⟨some "q", [], [], [], [" intro"], none⟩] := by
  constructor
  · intro text mods m p hp hm hpp
    exact ((parse_verilog_good hp) m hm).2.2 p hpp
  · rfl

/-- Port record used by the C3 witness. -/
def w3port : VerilogParameter := ⟨"s", some "input", some " [1:0]", none, none, none⟩

/-- Module list used by the C3 witness. -/
def w3mods : List VerilogModule := [⟨some "w3", [w3port], [], [], [], none⟩]

/-- Witness for claim C3's theorem at a concrete parse. -/
theorem claim3_witness :
    parse_verilog "module w3 ( input [1:0] t, s ); endmodule" = .ok w3mods ∧
    w3port.desc = none :=
  ⟨rfl,
   claim3_amended_metacomments.1 "module w3 ( input [1:0] t, s ); endmodule" w3mods
     ⟨some "w3", [w3port], [], [], [], none⟩ w3port rfl (List.Mem.head _)
     (List.Mem.head _)⟩

/-- Claim C4, counterexample. The same identifier `a` is declared twice
within one module, yet the final ports list has *two* entries named `a`:
the accumulating dictionary is keyed by the whole `(ident, define)`
tuple, and the two declarations sit under different guard annotations
(`` `ifdef FOO `` vs none), so the second does not replace the first. -/
theorem claim4_counterexample :
    (parse_verilog "module m ( input [1:0] x, `ifdef FOO\na, `endif\ninput [3:0] y, a ); endmodule").map
        (fun mods => mods.map (fun m => m.ports.map (fun p => p.name))) =
      .ok [["a", "a"]] := rfl

/-- Claim C4, amended. Ports are keyed by the `(identifier, define)`
pair: declaring the same identifier twice under the *same* innermost
guard annotation leaves exactly one entry carrying the later header's
mode and type, while declarations under different guard annotations
produce separate entries (both shown on concrete inputs). -/
theorem claim4_amended_keyed_overwrite :
    (parse_verilog "module m ( input [1:0] x, a, output [3:0] y, a ); endmodule").map
        (fun mods => mods.map (fun m => m.ports.map (fun p => (p.name, p.mode, p.data_type)))) =
      .ok [[("a", some "output", some " [3:0]")]]
    ∧ (parse_verilog "module m ( input [1:0] x, `ifdef FOO\na, `endif\ninput [3:0] y, a ); endmodule").map
        (fun mods => mods.map (fun m => m.ports.map (fun p => (p.name, p.define)))) =
      .ok [[("a", some "`ifdef=FOO"), ("a", none)]] :=
  ⟨rfl, rfl⟩

/-- Claim C5. Every module record emitted by a successful parse has its
ports list sorted ascending by name (`nameLe` is "name not strictly
greater", i.e. ascending code-point order), whatever the declaration
order in the source text. -/
theorem claim5_ports_sorted (text : String) (mods : List VerilogModule)
    (m : VerilogModule) (hp : parse_verilog text = .ok mods) (hm : m ∈ mods) :
    List.Pairwise nameLe m.ports :=
  ((parse_verilog_good hp) m hm).2.1

/-- Port records used by the C5 witness (declared in source order `b`,
`a`; emitted sorted `a`, `b`). -/
def w5a : VerilogParameter := ⟨"a", some "input", some " [1:0]", none, none, none⟩

def w5b : VerilogParameter := ⟨"b", some "input", some " [1:0]", none, none, none⟩

def w5m : VerilogModule := ⟨some "w", [w5a, w5b], [], [], [], none⟩

/-- Witness for claim C5 at a concrete parse with two ports declared in
descending name order. -/
theorem claim5_witness :
    parse_verilog "module w ( input [1:0] x, b, a ); endmodule" = .ok [w5m] ∧
    List.Pairwise nameLe w5m.ports :=
  ⟨rfl,
   claim5_ports_sorted "module w ( input [1:0] x, b, a ); endmodule" [w5m] w5m rfl
     (List.Mem.head _)⟩

/-- Claim C6, counterexample. The document ends while the guard
`` `ifdef FOO `` is still open and outside any module; the claim says
parsing must raise, but `parse_verilog` returns the (empty) module list
normally — the guard-balance check runs only at `endmodule`. -/
theorem claim6_counterexample :
    parse_verilog "`ifdef FOO\n" = .ok ([] : List VerilogModule) := rfl

/-- Claim C6, amended. Unclosed guards are detected only when a module
closes: a guard still open at `endmodule` is a hard failure, while a
guard left open at end of document outside any module is ignored and the
module list is returned. -/
theorem claim6_amended_guard_check_at_endmodule :
    parse_verilog "module m ; endmodule `ifdef FOO" =
      .ok [⟨some "m", [], [], [], [], none⟩]
    ∧ parse_verilog "module k ( `ifndef BAR\n); endmodule" =
      .error (.unterminatedDefine "`ifndef BAR") :=
  ⟨rfl, rfl⟩

/-- Claim C7. Processing an `endif` token with an empty define stack
raises the no-matching-guard failure, and processing an `end_module`
token with a nonempty define stack raises the unterminated-guard failure
(the rest of the token stream is abandoned, so no module list is
returned); both are also shown on whole-text parses (spec scenarios D
and C). -/
theorem claim7_guard_failures :
    (∀ (st : PState) (toks : List Token) (p : Nat) (gs : List (Option String)),
        st.current_define = [] →
        reduceAll ((p, some .endif, gs) :: toks) st = .error .noMatchingEndif)
    ∧ (∀ (st : PState) (toks : List Token) (p : Nat) (gs : List (Option String)),
        st.current_define ≠ [] →
        reduceAll ((p, some .end_module, gs) :: toks) st =
          .error (.unterminatedDefine
            (pyReplaceChar '=' ' ' (st.current_define.getLastD ""))))
    ∧ parse_verilog "`endif\n" = .error .noMatchingEndif
    ∧ parse_verilog "module m ( `ifdef FOO\n); endmodule" =
        .error (.unterminatedDefine "`ifdef FOO") := by
  refine ⟨?_, ?_, rfl, rfl⟩
  · intro st toks p gs hemp
    rw [reduceAll, reduceStep]
    have hb : st.current_define.isEmpty = true := by
      rw [hemp]
      rfl
    rw [if_pos hb]
  · intro st toks p gs hne
    rw [reduceAll, reduceStep]
    unfold doEndModule
    have hb : ¬ st.current_define.isEmpty = true := by
      intro hc
      exact hne (List.isEmpty_iff.mp hc)
    rw [if_neg hb]

/-- Reducer state with one open guard, used by the C7 witness. -/
def w7st : PState := { initState with current_define := ["`ifdef=Z"] }

/-- Witness for claim C7 at concrete states and tokens. -/
theorem claim7_witness :
    reduceAll [(0, some VAction.endif, [])] initState = .error .noMatchingEndif ∧
    reduceAll [(0, some VAction.end_module, [])] w7st =
      .error (.unterminatedDefine "`ifdef Z") :=
  ⟨claim7_guard_failures.1 initState [] 0 [] rfl,
   claim7_guard_failures.2.1 w7st [] 0 []
     (by intro hc; exact List.noConfusion hc)⟩

/-- Claim C8. With the file system modelled explicitly: a first call for
a path not in the cache reads the file, parses it, and stores the result
keyed by the path; any later call for a cached path returns the cached
result with the cache unchanged, for *every* file system — i.e. without
re-reading or re-parsing. -/
theorem claim8_cache_behaviour (fs : String → Option String)
    (cache : List (String × List VerilogModule)) (fname text : String)
    (objs : List VerilogModule) :
    (List.lookup fname cache = none → fs fname = some text →
      parse_verilog text = .ok objs →
      extract_objects fs ⟨cache⟩ fname none =
        .ok (objs, ⟨odictInsert fname objs cache⟩))
    ∧ (∀ cached : List VerilogModule, List.lookup fname cache = some cached →
        ∀ fs2 : String → Option String,
          extract_objects fs2 ⟨cache⟩ fname none = .ok (cached, ⟨cache⟩)) := by
  constructor
  · intro h1 h2 h3
    simp only [extract_objects, h1, h2, h3]
  · intro cached h1 fs2
    simp only [extract_objects, h1]

/-- Text parsed by the C8 witness. -/
def w8text : String := "module e ; endmodule"

/-- Parse result of `w8text`. -/
def w8objs : List VerilogModule := [⟨some "e", [], [], [], [], none⟩]

/-- File system of the C8 witness. -/
def w8fs : String → Option String :=
  fun n => if n = "w8.v" then some w8text else none

/-- Witness for claim C8: the first call populates the cache; a second
call succeeds even on a file system where the file no longer exists. -/
theorem claim8_witness :
    extract_objects w8fs ⟨[]⟩ "w8.v" none = .ok (w8objs, ⟨[("w8.v", w8objs)]⟩) ∧
    extract_objects (fun _ => none) ⟨[("w8.v", w8objs)]⟩ "w8.v" none =
      .ok (w8objs, ⟨[("w8.v", w8objs)]⟩) :=
  ⟨(claim8_cache_behaviour w8fs [] "w8.v" w8text w8objs).1 rfl rfl rfl,
   (claim8_cache_behaviour (fun _ => none) [("w8.v", w8objs)] "w8.v" w8text w8objs).2
     w8objs rfl (fun _ => none)⟩

/-- Claim C9. Every module record of a successful parse has `define =
None`: emission raises when the guard stack is nonempty, so the branch
annotating the record with the innermost guard is unreachable. -/
theorem claim9_define_none (text : String) (mods : List VerilogModule)
    (m : VerilogModule) (hp : parse_verilog text = .ok mods) (hm : m ∈ mods) :
    m.define = none :=
  ((parse_verilog_good hp) m hm).1

/-- Module used by the C9 witness. -/
def w9m : VerilogModule :=
  ⟨some "z9", [⟨"q", some "input", some " [2:0]", none, none, none⟩], [], [], [], none⟩

/-- Witness for claim C9 at a concrete parse. -/
theorem claim9_witness :
    parse_verilog "module z9 ( input [2:0] k, q ); endmodule" = .ok [w9m] ∧
    w9m.define = none :=
  ⟨rfl,
   claim9_define_none "module z9 ( input [2:0] k, q ); endmodule" [w9m] w9m rfl
     (List.Mem.head _)⟩

/-- Claim C10. A first call with a type filter stores the *unfiltered*
parse result in the cache and filters only the returned list; a later
call for the same path with no filter therefore returns the full set of
cached declarations. -/
theorem claim10_cache_unfiltered (fs : String → Option String)
    (cache : List (String × List VerilogModule)) (fname text : String)
    (objs : List VerilogModule) (f : VerilogModule → Bool)
    (h1 : List.lookup fname cache = none) (h2 : fs fname = some text)
    (h3 : parse_verilog text = .ok objs) :
    extract_objects fs ⟨cache⟩ fname (some f) =
      .ok (objs.filter f, ⟨odictInsert fname objs cache⟩)
    ∧ ∀ fs2 : String → Option String,
        extract_objects fs2 ⟨odictInsert fname objs cache⟩ fname none =
          .ok (objs, ⟨odictInsert fname objs cache⟩) := by
  constructor
  · simp only [extract_objects, h1, h2, h3]
  · intro fs2
    simp only [extract_objects, lookup_odictInsert_self]

/-- Text parsed by the C10 witness. -/
def wAtext : String := "module e2 ; endmodule"

/-- Parse result of `wAtext`. -/
def wAobjs : List VerilogModule := [⟨some "e2", [], [], [], [], none⟩]

/-- File system of the C10 witness. -/
def wAfs : String → Option String :=
  fun n => if n = "wA.v" then some wAtext else none

/-- Witness for claim C10: a filtered first call caches the full parse
result; an unfiltered second call returns it. -/
theorem claim10_witness :
    extract_objects wAfs ⟨[]⟩ "wA.v" (some (fun _ => false)) =
      .ok ([], ⟨[("wA.v", wAobjs)]⟩) ∧
    extract_objects wAfs ⟨[("wA.v", wAobjs)]⟩ "wA.v" none =
      .ok (wAobjs, ⟨[("wA.v", wAobjs)]⟩) :=
  ⟨(claim10_cache_unfiltered wAfs [] "wA.v" wAtext wAobjs (fun _ => false)
      rfl rfl rfl).1,
   (claim10_cache_unfiltered wAfs [] "wA.v" wAtext wAobjs (fun _ => false)
      rfl rfl rfl).2 wAfs⟩

end Hdlparse
